import Mathlib

/-!
Shallow embedding of the `valve` stream-instrumentation package
(`meter.go`, `limit.go`, `valve.go`, with `internal/error.go` at its boundary).

Modelling conventions:

* Go `int64` values are `Int`; the atomic add (`atomic.Int64.Add`) and plain
  `int64` subtraction wrap at 2^64, written explicitly with `wrap64`.
* Byte buffers are represented by their length (`Nat`): the code never
  inspects buffer contents, only `len(p)` and the slicing `p[:rem]`.
* An endpoint binding (`io.Reader` / `io.Writer` value stored in a `Meter`)
  is an `Endpoint`: a per-call transfer behavior `call` (request length ↦
  bytes moved and error, the result of the endpoint's own `Read`/`Write`)
  together with an optional close capability `closer` (present iff the bound
  object implements `io.Closer`; its value is the error that `Close()`
  returns).  A `nil` interface field is `none`.
* The outcomes of the library helpers `io.Copy(dst, src)` and
  `io.CopyN(dst, src, n)` depend on the external source/sink, so they are
  passed as parameters: `copyAll : Int × Option Err` is the result of the
  unbounded `io.Copy`, and `copyN : Int → Int × Option Err` maps the bound
  `n` to the result of `io.CopyN`.
* Go `error` values are `Option Err`; `none` is `nil`.
* `internal.MakeError` attaches a creation timestamp and formatting data to
  its cause; neither is observable through the causal-equivalence predicate
  (`internal.Error.Is` compares causes only), so `Err.internalError` keeps
  just the cause.  The `*Limit` back-pointer stored in `LimitError` is used
  only to render the ceiling in its message and is likewise omitted.
-/

namespace Valve

/-- Two's-complement wraparound of 64-bit signed integer arithmetic. -/
def wrap64 (x : Int) : Int := (x + 2 ^ 63) % 2 ^ 64 - 2 ^ 63

/-- `x` is representable as a 64-bit signed integer. -/
abbrev inRange64 (x : Int) : Prop := -(2 ^ 63) ≤ x ∧ x < 2 ^ 63

/-- Operation bitmask (`type IO int` in valve.go): `Read IO = 1 << iota`. -/
def Read : Int := 1

/-- Operation bitmask constant `Write` from valve.go. -/
def Write : Int := 2

/-- Operation bitmask constant `Close` from valve.go. -/
def Close : Int := 4

/-- Bitmask combination `ReadWrite = Read | Write` from valve.go. -/
def ReadWrite : Int := 3

/-- Error values observable from the package:
`io.ErrClosedPipe`; `valve.LimitError` (operation bitmask, `Requested`,
`Accepted`); an opaque error produced by an underlying endpoint (`tag`
distinguishes distinct error objects); `internal.Error` wrapping a cause;
and the `*joinError` produced by `errors.Join`, which wraps the list of the
non-nil joined errors.  This program only ever calls `errors.Join` with two
arguments, so the wrapped list has one or two elements, encoded as `join1`
and `join2`. -/
inductive Err where
  | closedPipe : Err
  | limitError (op : Int) (requested accepted : Int) : Err
  | underlying (tag : Nat) : Err
  | internalError (cause : Err) : Err
  | join1 (e : Err) : Err
  | join2 (e1 e2 : Err) : Err
deriving DecidableEq, Repr

/-- The cause of an `internal.Error`, used by `internal.Error.Is`, which
shallow-compares causes: if the target is itself an `internal.Error` the
comparison proceeds against the target's cause. -/
def causeOf : Err → Err
  | .internalError c => c
  | e => e

/-- Model of Go `errors.Is e t`: direct equality, the `Is` method of
`internal.Error` (compare causes), and traversal of `errors.Join` trees via
`Unwrap() []error`. -/
def errIs : Err → Err → Bool
  | .internalError c, t => decide (Err.internalError c = t) || errIs c (causeOf t)
  | .join1 e, t => decide (Err.join1 e = t) || errIs e t
  | .join2 a b, t => decide (Err.join2 a b = t) || errIs a t || errIs b t
  | e, t => decide (e = t)

/-- Go `errors.Join(a, b)` as this program calls it (always two arguments):
`nil` when both are `nil`, otherwise a `joinError` wrapping the one or two
non-nil arguments in order. -/
def errorsJoin (a b : Option Err) : Option Err :=
  match a, b with
  | none, none => none
  | some x, none => some (.join1 x)
  | none, some y => some (.join1 y)
  | some x, some y => some (.join2 x y)

/-- An endpoint binding: the transfer behavior of the bound `io.Reader` or
`io.Writer` for one call (request length ↦ (bytes moved, error)), and its
close capability (`some ce` iff the bound object implements `io.Closer` and
its `Close()` returns `ce`). -/
structure Endpoint where
  call : Nat → Int × Option Err := fun _ => (0, none)
  closer : Option (Option Err) := none

/-- `valve.Meter` (meter.go): optional reader and writer bindings and the two
atomic byte counters. -/
structure Meter where
  reader : Option Endpoint := none
  writer : Option Endpoint := none
  rCount : Int := 0
  wCount : Int := 0

/-- `NewMeter(r, w)`. -/
def NewMeter (r w : Option Endpoint) : Meter :=
  { reader := r, writer := w }

/-- `NewReadMeter(r)`. -/
def NewReadMeter (r : Option Endpoint) : Meter :=
  { reader := r, writer := none }

/-- `NewWriteMeter(w)`. -/
def NewWriteMeter (w : Option Endpoint) : Meter :=
  { reader := none, writer := w }

/-- `NewReadWriteMeter(rw)`: the single object `rw` is bound as both the
reader and the writer. -/
def NewReadWriteMeter (rw : Endpoint) : Meter :=
  { reader := some rw, writer := some rw }

/-- `Meter.CanRead`: the reader binding is present (non-nil). -/
def Meter.CanRead (m : Meter) : Bool := m.reader.isSome

/-- `Meter.CanWrite`: the writer binding is present (non-nil). -/
def Meter.CanWrite (m : Meter) : Bool := m.writer.isSome

/-- `Meter.CountRead`. -/
def Meter.CountRead (m : Meter) : Int := m.rCount

/-- `Meter.CountWrite`. -/
def Meter.CountWrite (m : Meter) : Int := m.wCount

/-- `Meter.AddCountRead(r)`: atomic wrapping add; returns the new count and
the updated meter. -/
def Meter.AddCountRead (m : Meter) (r : Int) : Int × Meter :=
  let c := wrap64 (m.rCount + r)
  (c, { m with rCount := c })

/-- `Meter.AddCountWrite(w)`: atomic wrapping add; returns the new count and
the updated meter. -/
def Meter.AddCountWrite (m : Meter) (w : Int) : Int × Meter :=
  let c := wrap64 (m.wCount + w)
  (c, { m with wCount := c })

/-- `Meter.SetCountRead(r)`. -/
def Meter.SetCountRead (m : Meter) (r : Int) : Meter :=
  { m with rCount := r }

/-- `Meter.SetCountWrite(w)`. -/
def Meter.SetCountWrite (m : Meter) (w : Int) : Meter :=
  { m with wCount := w }

/-- `Meter.ResetCount`. -/
def Meter.ResetCount (m : Meter) : Meter :=
  (m.SetCountRead 0).SetCountWrite 0

/-- `Meter.Read(p)`: `ErrClosedPipe` when no reader is bound; otherwise
delegate to the bound reader and add the bytes it actually returned
(`_ = m.AddCountRead(int64(n))`). -/
def Meter.Read (m : Meter) (p : Nat) : Int × Option Err × Meter :=
  match m.reader with
  | none => (0, some .closedPipe, m)
  | some ep =>
    let ne := ep.call p
    (ne.1, ne.2, (m.AddCountRead ne.1).2)

/-- `Meter.Write(p)`: symmetric to `Meter.Read` on the writer binding. -/
def Meter.Write (m : Meter) (p : Nat) : Int × Option Err × Meter :=
  match m.writer with
  | none => (0, some .closedPipe, m)
  | some ep =>
    let ne := ep.call p
    (ne.1, ne.2, (m.AddCountWrite ne.1).2)

/-- `Meter.ReadFrom(r)`: `ErrClosedPipe` when no writer is bound; otherwise
`n, err = io.Copy(m.Writer, r)` (outcome passed as `copy`) and
`m.AddCountWrite(n)`. -/
def Meter.ReadFrom (m : Meter) (copy : Int × Option Err) : Int × Option Err × Meter :=
  if !m.CanWrite then (0, some .closedPipe, m)
  else (copy.1, copy.2, (m.AddCountWrite copy.1).2)

/-- `Meter.WriteTo(w)`: `ErrClosedPipe` when no reader is bound; otherwise
`n, err = io.Copy(w, m.Reader)` (outcome passed as `copy`) and
`m.AddCountRead(n)`. -/
def Meter.WriteTo (m : Meter) (copy : Int × Option Err) : Int × Option Err × Meter :=
  if !m.CanRead then (0, some .closedPipe, m)
  else (copy.1, copy.2, (m.AddCountRead copy.1).2)

/-- One step of the loop in `Meter.close`: if the value is a non-nil binding
implementing `io.Closer`, fold `err = errors.Join(err, c.Close())` and count
the invocation. -/
def closeStep (acc : Option Err × Nat) (v : Option Endpoint) : Option Err × Nat :=
  match v with
  | some ep =>
    match ep.closer with
    | some ce => (errorsJoin acc.1 ce, acc.2 + 1)
    | none => acc
  | none => acc

/-- `Meter.close(v...)`: join the close result of every closable value in
order.  The second component counts how many `Close()` invocations were
made (observable instrumentation; the Go code performs exactly these calls). -/
def Meter.close (_ : Meter) (v : List (Option Endpoint)) : Option Err × Nat :=
  v.foldl closeStep (none, 0)

/-- `Meter.Close()`: `m.close(m.Reader, m.Writer)` — reader first, writer
second. -/
def Meter.Close (m : Meter) : Option Err × Nat :=
  m.close [m.reader, m.writer]

/-- The close results (`Close()` return values) of the closable bindings of
`m`, in the order `Meter.Close` invokes them: reader first, then writer. -/
def Meter.closeResults (m : Meter) : List (Option Err) :=
  ([m.reader, m.writer].filterMap id).filterMap Endpoint.closer

/-- `valve.Limit` (limit.go): an embedded `*Meter` (nil-able) plus the two
ceiling values. -/
structure Limit where
  meter : Option Meter := none
  rMax : Int := 0
  wMax : Int := 0

/-- `Unlimited = -1`. -/
def Unlimited : Int := -1

/-- `Limit.CanRead`: `l.Meter != nil && l.Meter.CanRead()`. -/
def Limit.CanRead (l : Limit) : Bool :=
  match l.meter with
  | some m => m.CanRead
  | none => false

/-- `Limit.CanWrite`: `l.Meter != nil && l.Meter.CanWrite()`. -/
def Limit.CanWrite (l : Limit) : Bool :=
  match l.meter with
  | some m => m.CanWrite
  | none => false

/-- `Limit.MakeReadLimitError(req, n)`:
`internal.MakeError(LimitError{Limit: l, op: Read, Requested: req,
Accepted: n})`.  The `*Limit` back-pointer only feeds message rendering and
is not modelled. -/
def Limit.MakeReadLimitError (_ : Limit) (req n : Int) : Err :=
  .internalError (.limitError Read req n)

/-- `Limit.MakeWriteLimitError(req, n)`: as `MakeReadLimitError` with
`op: Write`. -/
def Limit.MakeWriteLimitError (_ : Limit) (req n : Int) : Err :=
  .internalError (.limitError Write req n)

/-- `Limit.Read(p)` (limit.go lines 71–89).  The two leading matches unfold
`if !l.CanRead()`.  `req = int64(len(p))`, `rem = l.RemainingCountRead()`
(int64 subtraction, hence `wrap64`).  Branches in the order of the Go
`switch`: `Unlimited` delegates to `l.Meter.Read(p)`; counter at or past the
ceiling returns the `LimitError` without touching the endpoint; an
over-sized request is truncated to `p[:rem]` with a pending `LimitError`.
Then `l.Reader.Read(p)` runs, a `nil` underlying error is replaced by the
pending error, and `l.AddCountRead(int64(n))` always runs. -/
def Limit.Read (l : Limit) (p : Nat) : Int × Option Err × Limit :=
  match l.meter with
  | none => (0, some .closedPipe, l)
  | some m =>
    match m.reader with
    | none => (0, some .closedPipe, l)
    | some ep =>
      let req : Int := (p : Int)
      let rem : Int := wrap64 (l.rMax - m.rCount)
      if l.rMax = Unlimited then
        let r := m.Read p
        (r.1, r.2.1, { l with meter := some r.2.2 })
      else if m.rCount ≥ l.rMax then
        (0, some (l.MakeReadLimitError req 0), l)
      else
        let pe : Nat × Option Err :=
          if req > rem then (rem.toNat, some (l.MakeReadLimitError req rem))
          else (p, none)
        let ne := ep.call pe.1
        let err : Option Err :=
          match ne.2 with
          | none => pe.2
          | some e0 => some e0
        (ne.1, err, { l with meter := (m.AddCountRead ne.1).2 })

/-- `Limit.Write(p)` (limit.go lines 120–138): mirror of `Limit.Read` on the
writer binding, write ceiling and write counter. -/
def Limit.Write (l : Limit) (p : Nat) : Int × Option Err × Limit :=
  match l.meter with
  | none => (0, some .closedPipe, l)
  | some m =>
    match m.writer with
    | none => (0, some .closedPipe, l)
    | some ep =>
      let req : Int := (p : Int)
      let rem : Int := wrap64 (l.wMax - m.wCount)
      if l.wMax = Unlimited then
        let r := m.Write p
        (r.1, r.2.1, { l with meter := some r.2.2 })
      else if m.wCount ≥ l.wMax then
        (0, some (l.MakeWriteLimitError req 0), l)
      else
        let pe : Nat × Option Err :=
          if req > rem then (rem.toNat, some (l.MakeWriteLimitError req rem))
          else (p, none)
        let ne := ep.call pe.1
        let err : Option Err :=
          match ne.2 with
          | none => pe.2
          | some e0 => some e0
        (ne.1, err, { l with meter := (m.AddCountWrite ne.1).2 })

/-- `Limit.ReadFrom(r)` (limit.go lines 96–113).  `rem =
l.RemainingCountWrite()`; `Unlimited` delegates to `l.Meter.ReadFrom(r)`
(unbounded `io.Copy`, outcome `copyAll`); `rem <= 0` returns
`l.MakeWriteLimitError(rem, 0)` without touching the source; otherwise
`n, err = io.CopyN(l.Writer, r, rem)` (outcome `copyN rem`) and
`l.AddCountWrite(n)`. -/
def Limit.ReadFrom (l : Limit) (copyAll : Int × Option Err)
    (copyN : Int → Int × Option Err) : Int × Option Err × Limit :=
  match l.meter with
  | none => (0, some .closedPipe, l)
  | some m =>
    if !m.CanWrite then (0, some .closedPipe, l)
    else
      let rem : Int := wrap64 (l.wMax - m.wCount)
      if l.wMax = Unlimited then
        let r := m.ReadFrom copyAll
        (r.1, r.2.1, { l with meter := some r.2.2 })
      else if rem ≤ 0 then
        (0, some (l.MakeWriteLimitError rem 0), l)
      else
        let nc := copyN rem
        (nc.1, nc.2, { l with meter := some (m.AddCountWrite nc.1).2 })

/-- `Limit.WriteTo(w)` (limit.go lines 145–162): mirror of `Limit.ReadFrom`
on the read ceiling, read counter and reader binding; the bounded drain is
`io.CopyN(w, l.Reader, rem)`. -/
def Limit.WriteTo (l : Limit) (copyAll : Int × Option Err)
    (copyN : Int → Int × Option Err) : Int × Option Err × Limit :=
  match l.meter with
  | none => (0, some .closedPipe, l)
  | some m =>
    if !m.CanRead then (0, some .closedPipe, l)
    else
      let rem : Int := wrap64 (l.rMax - m.rCount)
      if l.rMax = Unlimited then
        let r := m.WriteTo copyAll
        (r.1, r.2.1, { l with meter := some r.2.2 })
      else if rem ≤ 0 then
        (0, some (l.MakeReadLimitError rem 0), l)
      else
        let nc := copyN rem
        (nc.1, nc.2, { l with meter := some (m.AddCountRead nc.1).2 })

/-- `Limit.Close()`: `if l.Meter != nil { return l.Meter.Close() }; return
nil` (no close invocations when the meter is nil). -/
def Limit.Close (l : Limit) : Option Err × Nat :=
  match l.meter with
  | some m => m.Close
  | none => (none, 0)

/-- `Limit.MaxCountRead`. -/
def Limit.MaxCountRead (l : Limit) : Int := l.rMax

/-- `Limit.MaxCountWrite`. -/
def Limit.MaxCountWrite (l : Limit) : Int := l.wMax

/-- `Limit.SetMaxCountRead(r)`. -/
def Limit.SetMaxCountRead (l : Limit) (r : Int) : Limit :=
  { l with rMax := r }

/-- `Limit.SetMaxCountWrite(w)`. -/
def Limit.SetMaxCountWrite (l : Limit) (w : Int) : Limit :=
  { l with wMax := w }

/-- The read counter of the meter embedded in `l` (Go promotes
`l.Meter.CountRead()`; `0` stands in for the nil-meter panic case, which no
theorem below relies on). -/
def Limit.CountRead (l : Limit) : Int :=
  match l.meter with
  | some m => m.rCount
  | none => 0

/-- The write counter of the meter embedded in `l` (see
`Limit.CountRead`). -/
def Limit.CountWrite (l : Limit) : Int :=
  match l.meter with
  | some m => m.wCount
  | none => 0

/-! Concrete endpoints, meters and limits used to instantiate the theorems
below on explicit inputs. -/

/-- An endpoint that always serves the full request without error. -/
def epFull : Endpoint := { call := fun k => ((k : Int), none) }

/-- An endpoint that serves one byte less than requested, without error. -/
def epShort : Endpoint := { call := fun k => ((k : Int) - 1, none) }

/-- An endpoint that moves 2 bytes and simultaneously reports an error. -/
def epErr : Endpoint := { call := fun _ => (2, some (.underlying 7)) }

/-- A closable endpoint whose `Close()` reports `underlying 1`. -/
def epCfail1 : Endpoint := { closer := some (some (.underlying 1)) }

/-- A closable endpoint whose `Close()` reports `underlying 2`. -/
def epCfail2 : Endpoint := { closer := some (some (.underlying 2)) }

/-- A copy outcome that moves nothing and reports no error. -/
def czero : Int → Int × Option Err := fun _ => (0, none)

/-- A copy outcome that moves exactly the requested bound without error. -/
def cfull : Int → Int × Option Err := fun r => (r, none)

/-- Write-capable meter whose write counter (8) already exceeds the write
ceiling of `lC1` (5): remaining write capacity is −3. -/
def mC1 : Meter := { writer := some epFull, wCount := 8 }

/-- Limit with write ceiling 5 around `mC1`. -/
def lC1 : Limit := { meter := some mC1, wMax := 5 }

/-- Meter readable and writable with counters 9 and 8. -/
def mW1 : Meter := { reader := some epFull, writer := some epFull, rCount := 9, wCount := 8 }

/-- Limit with ceilings 4 (read) and 5 (write) around `mW1`: both remaining
capacities are negative. -/
def lW1 : Limit := { meter := some mW1, rMax := 4, wMax := 5 }

/-- Fresh meter over full-service endpoints. -/
def mW2 : Meter := { reader := some epFull, writer := some epFull }

/-- Limit with ceilings 5 and 6 around `mW2`. -/
def lW2 : Limit := { meter := some mW2, rMax := 5, wMax := 6 }

/-- Meter whose counters sit exactly at / above the ceilings of `lW3`. -/
def mW3 : Meter := { reader := some epFull, writer := some epFull, rCount := 5, wCount := 7 }

/-- Limit with ceilings 5 and 6 around `mW3`. -/
def lW3 : Limit := { meter := some mW3, rMax := 5, wMax := 6 }

/-- Meter with nonzero counters over full-service endpoints. -/
def mW4 : Meter := { reader := some epFull, writer := some epFull, rCount := 3, wCount := 4 }

/-- Limit with both ceilings `Unlimited` around `mW4`. -/
def lW4 : Limit := { meter := some mW4, rMax := Unlimited, wMax := Unlimited }

/-- Meter with counters 2 and 3 over full-service endpoints. -/
def mW5 : Meter := { reader := some epFull, writer := some epFull, rCount := 2, wCount := 3 }

/-- Limit with ceilings 5 and 6 around `mW5`. -/
def lW5 : Limit := { meter := some mW5, rMax := 5, wMax := 6 }

/-- Meter whose reader errors mid-transfer and whose writer is full-service. -/
def mW6 : Meter := { reader := some epErr, writer := some epFull }

/-- Limit with ceilings 5 and 6 around `mW6`. -/
def lW6 : Limit := { meter := some mW6, rMax := 5, wMax := 6 }

/-- Meter binding the short endpoint in both directions, counters 10, 20. -/
def mW7 : Meter := { reader := some epShort, writer := some epShort, rCount := 10, wCount := 20 }

/-- Meter whose two bindings are distinct closable endpoints that both fail
to close. -/
def mW8 : Meter := { reader := some epCfail1, writer := some epCfail2 }

/-- Limit around `mW8`. -/
def lW8 : Limit := { meter := some mW8 }

/-- Meter with counters 3 and 2 over full-service endpoints. -/
def mW9 : Meter := { reader := some epFull, writer := some epFull, rCount := 3, wCount := 2 }

/-- Limit with ceilings 7 and 8 around `mW9`: remaining capacities 4 (read)
and 6 (write). -/
def lW9 : Limit := { meter := some mW9, rMax := 7, wMax := 8 }

/-- A read-write object that is closable; its `Close()` reports
`underlying 3`. -/
def rwC : Endpoint := { closer := some (some (.underlying 3)) }

/-! Helper lemmas. -/

/-- `wrap64` is the identity on values representable in 64 bits. -/
theorem wrap64_eq {x : Int} (h1 : -(2 ^ 63) ≤ x) (h2 : x < 2 ^ 63) :
    wrap64 x = x := by
  unfold wrap64
  rw [Int.emod_eq_of_lt (by omega) (by omega)]
  omega

/-- `errors.Is` relates every error to itself. -/
theorem errIs_self (e : Err) : errIs e e = true := by
  cases e <;> simp [errIs]

/-- Re-storing the meter a `Limit` already holds leaves it unchanged. -/
theorem limit_eta (l : Limit) (m : Meter) (hm : l.meter = some m) :
    { l with meter := some m } = l := by
  obtain ⟨mt, rx, wx⟩ := l
  obtain rfl : mt = some m := hm
  rfl

/-! Claim theorems, one per claim, with their witnesses and the C1
counterexample. -/

/-- C1 counterexample: on `lC1` (write ceiling 5, write counter 8, so
remaining write capacity −3 ≤ 0), `ReadFrom` does return 0 bytes and a
`LimitError` with accepted 0, but its `Requested` field is the remaining
capacity −3, not 0 as the claim states (limit.go line 104 passes `rem`, not
`0`, as the requested amount). -/
theorem c1_requested_not_zero :
    (Limit.ReadFrom lC1 (0, none) czero).2.1 ≠
      some (.internalError (.limitError Write 0 0)) ∧
    (Limit.ReadFrom lC1 (0, none) czero).2.1 =
      some (.internalError (.limitError Write (-3) 0)) := by
  constructor
  · decide
  · decide

/-- C1 (amended): for every `Limit` whose write ceiling is not `Unlimited`
and whose remaining write capacity is ≤ 0, `ReadFrom` returns 0 bytes and a
`LimitError` whose `Requested` field equals the (non-positive) remaining
capacity — hence 0 exactly when the remaining capacity is 0 — and whose
`Accepted` field is 0, without reading any byte from the source (the result
is the same for every copy outcome and the state is unchanged);
symmetrically for `WriteTo` with the read ceiling. -/
theorem c1_exhausted_drain (l : Limit) (m : Meter) (hm : l.meter = some m)
    (cA cA' : Int × Option Err) (cN cN' : Int → Int × Option Err) :
    (m.CanWrite = true → l.wMax ≠ Unlimited → wrap64 (l.wMax - m.wCount) ≤ 0 →
      Limit.ReadFrom l cA cN =
        (0, some (.internalError (.limitError Write (wrap64 (l.wMax - m.wCount)) 0)), l)) ∧
    (m.CanRead = true → l.rMax ≠ Unlimited → wrap64 (l.rMax - m.rCount) ≤ 0 →
      Limit.WriteTo l cA' cN' =
        (0, some (.internalError (.limitError Read (wrap64 (l.rMax - m.rCount)) 0)), l)) := by
  constructor
  · intro hw hu hrem
    simp [Limit.ReadFrom, hm, hw, hu, hrem, Limit.MakeWriteLimitError]
  · intro hr hu hrem
    simp [Limit.WriteTo, hm, hr, hu, hrem, Limit.MakeReadLimitError]

/-- C1 witness: `lW1` is writable and readable, has non-`Unlimited` ceilings
and negative remaining capacities, and both drains return the exhausted
`LimitError` untouched. -/
theorem c1_exhausted_drain_witness :
    Limit.ReadFrom lW1 (0, none) czero =
      (0, some (.internalError (.limitError Write (wrap64 (lW1.wMax - mW1.wCount)) 0)), lW1) ∧
    Limit.WriteTo lW1 (0, none) czero =
      (0, some (.internalError (.limitError Read (wrap64 (lW1.rMax - mW1.rCount)) 0)), lW1) :=
  ⟨(c1_exhausted_drain lW1 mW1 rfl (0, none) (0, none) czero czero).1
      (by decide) (by decide) (by decide),
   (c1_exhausted_drain lW1 mW1 rfl (0, none) (0, none) czero czero).2
      (by decide) (by decide) (by decide)⟩

/-- C2: for every `Limit` with a non-`Unlimited` ceiling in the relevant
direction, a `Read` (resp. `Write`) whose buffer length R strictly exceeds
the remaining capacity Rem (0 < Rem < R) — when the endpoint serves the
truncated request in full without fault, as the spec's testable property
assumes — transfers exactly Rem bytes, advances the read (resp. write)
counter by exactly Rem (to the ceiling), and returns a `LimitError` with
`Requested` = R and `Accepted` = Rem. -/
theorem c2_truncated_transfer (l : Limit) (m : Meter) (hm : l.meter = some m)
    (p q : Nat) (ep epw : Endpoint) :
    (m.reader = some ep → inRange64 l.rMax → 0 ≤ m.rCount → m.rCount < l.rMax →
      (p : Int) > l.rMax - m.rCount →
      ep.call (l.rMax - m.rCount).toNat = (l.rMax - m.rCount, none) →
      Limit.Read l p =
        (l.rMax - m.rCount,
         some (.internalError (.limitError Read (p : Int) (l.rMax - m.rCount))),
         { l with meter := some { m with rCount := l.rMax } })) ∧
    (m.writer = some epw → inRange64 l.wMax → 0 ≤ m.wCount → m.wCount < l.wMax →
      (q : Int) > l.wMax - m.wCount →
      epw.call (l.wMax - m.wCount).toNat = (l.wMax - m.wCount, none) →
      Limit.Write l q =
        (l.wMax - m.wCount,
         some (.internalError (.limitError Write (q : Int) (l.wMax - m.wCount))),
         { l with meter := some { m with wCount := l.wMax } })) := by
  constructor
  · intro hr hR h0 hlt hgt hfull
    obtain ⟨hR1, hR2⟩ := hR
    have hRem : wrap64 (l.rMax - m.rCount) = l.rMax - m.rCount :=
      wrap64_eq (by omega) (by omega)
    have hu : l.rMax ≠ Unlimited := by simp only [Unlimited]; omega
    have hge : ¬ m.rCount ≥ l.rMax := by omega
    have hC : wrap64 (m.rCount + (l.rMax - m.rCount)) = l.rMax := by
      have h : m.rCount + (l.rMax - m.rCount) = l.rMax := by omega
      rw [h]; exact wrap64_eq (by omega) (by omega)
    simp [Limit.Read, hm, hr, hRem, hu, hge, hgt, hfull,
      Limit.MakeReadLimitError, Meter.AddCountRead, hC,
      wrap64_eq (x := l.rMax) (by omega) (by omega)]
  · intro hw hR h0 hlt hgt hfull
    obtain ⟨hR1, hR2⟩ := hR
    have hRem : wrap64 (l.wMax - m.wCount) = l.wMax - m.wCount :=
      wrap64_eq (by omega) (by omega)
    have hu : l.wMax ≠ Unlimited := by simp only [Unlimited]; omega
    have hge : ¬ m.wCount ≥ l.wMax := by omega
    have hC : wrap64 (m.wCount + (l.wMax - m.wCount)) = l.wMax := by
      have h : m.wCount + (l.wMax - m.wCount) = l.wMax := by omega
      rw [h]; exact wrap64_eq (by omega) (by omega)
    simp [Limit.Write, hm, hw, hRem, hu, hge, hgt, hfull,
      Limit.MakeWriteLimitError, Meter.AddCountWrite, hC,
      wrap64_eq (x := l.wMax) (by omega) (by omega)]

/-- C2 witness: on `lW2` (fresh counters, ceilings 5 and 6, full-service
endpoints) a 13-byte read transfers 5 and a 14-byte write transfers 6, each
with the matching `LimitError` and the counter advanced to the ceiling. -/
theorem c2_truncated_transfer_witness :
    Limit.Read lW2 13 =
      (5, some (.internalError (.limitError Read 13 5)),
       { lW2 with meter := some { mW2 with rCount := 5 } }) ∧
    Limit.Write lW2 14 =
      (6, some (.internalError (.limitError Write 14 6)),
       { lW2 with meter := some { mW2 with wCount := 6 } }) :=
  ⟨(c2_truncated_transfer lW2 mW2 rfl 13 14 epFull epFull).1 rfl
      (by constructor <;> decide) (by decide) (by decide) (by decide) rfl,
   (c2_truncated_transfer lW2 mW2 rfl 13 14 epFull epFull).2 rfl
      (by constructor <;> decide) (by decide) (by decide) (by decide) rfl⟩

/-- C4: for every `Limit` whose ceiling in the relevant direction is
`Unlimited`, each of `Read`, `Write`, `ReadFrom` and `WriteTo` returns the
very byte count and error of the same call on the embedded `Meter` and
performs the identical counter update, with no truncation and no
substituted `LimitError`, whatever the current counter values (so also
after `SetMaxCount` made the ceiling `Unlimited` at any point). -/
theorem c4_unlimited_transparent (l : Limit) (m : Meter) (hm : l.meter = some m)
    (p q : Nat) (cA cA' : Int × Option Err) (cN cN' : Int → Int × Option Err) :
    (l.rMax = Unlimited →
      Limit.Read l p =
        ((m.Read p).1, (m.Read p).2.1, { l with meter := some (m.Read p).2.2 }) ∧
      Limit.WriteTo l cA cN =
        ((m.WriteTo cA).1, (m.WriteTo cA).2.1, { l with meter := some (m.WriteTo cA).2.2 })) ∧
    (l.wMax = Unlimited →
      Limit.Write l q =
        ((m.Write q).1, (m.Write q).2.1, { l with meter := some (m.Write q).2.2 }) ∧
      Limit.ReadFrom l cA' cN' =
        ((m.ReadFrom cA').1, (m.ReadFrom cA').2.1,
         { l with meter := some (m.ReadFrom cA').2.2 })) := by
  constructor
  · intro hru
    constructor
    · cases hr : m.reader with
      | none => simp [Limit.Read, hm, hr, Meter.Read, limit_eta l m hm]
      | some ep => simp [Limit.Read, hm, hr, hru, Meter.Read]
    · cases hr : m.reader with
      | none =>
        simp [Limit.WriteTo, hm, Meter.CanRead, hr, Meter.WriteTo, limit_eta l m hm]
      | some ep =>
        simp [Limit.WriteTo, hm, Meter.CanRead, hr, hru, Meter.WriteTo]
  · intro hwu
    constructor
    · cases hw : m.writer with
      | none => simp [Limit.Write, hm, hw, Meter.Write, limit_eta l m hm]
      | some ep => simp [Limit.Write, hm, hw, hwu, Meter.Write]
    · cases hw : m.writer with
      | none =>
        simp [Limit.ReadFrom, hm, Meter.CanWrite, hw, Meter.ReadFrom, limit_eta l m hm]
      | some ep =>
        simp [Limit.ReadFrom, hm, Meter.CanWrite, hw, hwu, Meter.ReadFrom]

/-- C4 witness: on `lW4` (both ceilings `Unlimited`, counters 3 and 4) all
four transfer operations coincide with the embedded meter's. -/
theorem c4_unlimited_transparent_witness :
    (Limit.Read lW4 13 =
      ((mW4.Read 13).1, (mW4.Read 13).2.1, { lW4 with meter := some (mW4.Read 13).2.2 }) ∧
     Limit.WriteTo lW4 (9, none) czero =
      ((mW4.WriteTo (9, none)).1, (mW4.WriteTo (9, none)).2.1,
       { lW4 with meter := some (mW4.WriteTo (9, none)).2.2 })) ∧
    (Limit.Write lW4 14 =
      ((mW4.Write 14).1, (mW4.Write 14).2.1, { lW4 with meter := some (mW4.Write 14).2.2 }) ∧
     Limit.ReadFrom lW4 (9, none) czero =
      ((mW4.ReadFrom (9, none)).1, (mW4.ReadFrom (9, none)).2.1,
       { lW4 with meter := some (mW4.ReadFrom (9, none)).2.2 })) :=
  ⟨(c4_unlimited_transparent lW4 mW4 rfl 13 14 (9, none) (9, none) czero czero).1 rfl,
   (c4_unlimited_transparent lW4 mW4 rfl 13 14 (9, none) (9, none) czero czero).2 rfl⟩

/-- C6: whenever a `Limit.Read` or `Limit.Write` call was truncated by the
ceiling (so a pending `LimitError` exists) and the underlying endpoint call
returns `(n0, e0)`, the call returns `n0` together with: `e0` itself,
unchanged, when `e0` is an error (it takes precedence over the pending
`LimitError`); the pending `LimitError` when `e0` is `nil`.  The counter
still advances by `n0`. -/
theorem c6_underlying_error_precedence (l : Limit) (m : Meter)
    (hm : l.meter = some m) (p q : Nat) (ep epw : Endpoint) (n0 n1 : Int)
    (e0 e1 : Option Err) :
    (m.reader = some ep → inRange64 l.rMax → 0 ≤ m.rCount → m.rCount < l.rMax →
      (p : Int) > l.rMax - m.rCount →
      ep.call (l.rMax - m.rCount).toNat = (n0, e0) →
      Limit.Read l p =
        (n0,
         some (match e0 with
           | some e => e
           | none => .internalError (.limitError Read (p : Int) (l.rMax - m.rCount))),
         { l with meter := some { m with rCount := wrap64 (m.rCount + n0) } })) ∧
    (m.writer = some epw → inRange64 l.wMax → 0 ≤ m.wCount → m.wCount < l.wMax →
      (q : Int) > l.wMax - m.wCount →
      epw.call (l.wMax - m.wCount).toNat = (n1, e1) →
      Limit.Write l q =
        (n1,
         some (match e1 with
           | some e => e
           | none => .internalError (.limitError Write (q : Int) (l.wMax - m.wCount))),
         { l with meter := some { m with wCount := wrap64 (m.wCount + n1) } })) := by
  constructor
  · intro hr hR h0 hlt hgt hcall
    obtain ⟨hR1, hR2⟩ := hR
    have hRem : wrap64 (l.rMax - m.rCount) = l.rMax - m.rCount :=
      wrap64_eq (by omega) (by omega)
    have hu : l.rMax ≠ Unlimited := by simp only [Unlimited]; omega
    have hge : ¬ m.rCount ≥ l.rMax := by omega
    cases e0 with
    | none =>
      simp [Limit.Read, hm, hr, hRem, hu, hge, hgt, hcall,
        Limit.MakeReadLimitError, Meter.AddCountRead]
    | some e =>
      simp [Limit.Read, hm, hr, hRem, hu, hge, hgt, hcall, Meter.AddCountRead]
  · intro hw hR h0 hlt hgt hcall
    obtain ⟨hR1, hR2⟩ := hR
    have hRem : wrap64 (l.wMax - m.wCount) = l.wMax - m.wCount :=
      wrap64_eq (by omega) (by omega)
    have hu : l.wMax ≠ Unlimited := by simp only [Unlimited]; omega
    have hge : ¬ m.wCount ≥ l.wMax := by omega
    cases e1 with
    | none =>
      simp [Limit.Write, hm, hw, hRem, hu, hge, hgt, hcall,
        Limit.MakeWriteLimitError, Meter.AddCountWrite]
    | some e =>
      simp [Limit.Write, hm, hw, hRem, hu, hge, hgt, hcall, Meter.AddCountWrite]

/-- C6 witness: on `lW6`, a truncated 13-byte read whose endpoint moves 2
bytes and fails with `underlying 7` returns that error unchanged, while a
truncated 14-byte write whose endpoint succeeds returns the pending
`LimitError{14, 6}`. -/
theorem c6_underlying_error_precedence_witness :
    Limit.Read lW6 13 =
      (2, some (.underlying 7),
       { lW6 with meter := some { mW6 with rCount := wrap64 (0 + 2) } }) ∧
    Limit.Write lW6 14 =
      (6, some (.internalError (.limitError Write 14 6)),
       { lW6 with meter := some { mW6 with wCount := wrap64 (0 + 6) } }) :=
  ⟨(c6_underlying_error_precedence lW6 mW6 rfl 13 14 epErr epFull 2 6
      (some (.underlying 7)) none).1 rfl (by constructor <;> decide)
      (by decide) (by decide) (by decide) rfl,
   (c6_underlying_error_precedence lW6 mW6 rfl 13 14 epErr epFull 2 6
      (some (.underlying 7)) none).2 rfl (by constructor <;> decide)
      (by decide) (by decide) (by decide) rfl⟩

/-- C3: for every `Limit` with a non-`Unlimited` read (resp. write) ceiling
whose read (resp. write) counter is already at or past the ceiling, `Read`
(resp. `Write`) on a buffer of any length returns 0 bytes and a `LimitError`
with `Requested` the buffer length and `Accepted` 0, without invoking the
endpoint (the endpoint's behavior is arbitrary and the result never consults
it) and leaving the state unchanged. -/
theorem c3_ceiling_reached (l : Limit) (m : Meter) (hm : l.meter = some m)
    (p q : Nat) (ep epw : Endpoint) :
    (m.reader = some ep → l.rMax ≠ Unlimited → m.rCount ≥ l.rMax →
      Limit.Read l p = (0, some (.internalError (.limitError Read (p : Int) 0)), l)) ∧
    (m.writer = some epw → l.wMax ≠ Unlimited → m.wCount ≥ l.wMax →
      Limit.Write l q = (0, some (.internalError (.limitError Write (q : Int) 0)), l)) := by
  constructor
  · intro hr hu hge
    simp [Limit.Read, hm, hr, hu, hge, Limit.MakeReadLimitError]
  · intro hw hu hge
    simp [Limit.Write, hm, hw, hu, hge, Limit.MakeWriteLimitError]

/-- C3 witness: on `lW3` (ceilings 5 and 6, counters 5 and 7) a 13-byte read
and a 14-byte write are rejected with the claimed `LimitError`s. -/
theorem c3_ceiling_reached_witness :
    Limit.Read lW3 13 = (0, some (.internalError (.limitError Read 13 0)), lW3) ∧
    Limit.Write lW3 14 = (0, some (.internalError (.limitError Write 14 0)), lW3) :=
  ⟨(c3_ceiling_reached lW3 mW3 rfl 13 14 epFull epFull).1 rfl (by decide) (by decide),
   (c3_ceiling_reached lW3 mW3 rfl 13 14 epFull epFull).2 rfl (by decide) (by decide)⟩

/-- C5: for every `Limit` with a non-`Unlimited` ceiling, when the wrapped
endpoint (or the bounded `io.CopyN` drain) never moves more bytes than
requested of it (and, as an `io.Reader`/`io.Writer`, not a negative count),
no single `Read`, `Write`, `ReadFrom` or `WriteTo` call advances the
corresponding counter past the ceiling: over-sized requests are truncated
to the remaining capacity before the endpoint runs, so `counter ≤ ceiling`
is preserved. -/
theorem c5_ceiling_invariant (l : Limit) (m : Meter) (hm : l.meter = some m)
    (p q : Nat) (ep epw : Endpoint) (cA cA' : Int × Option Err)
    (cN cN' : Int → Int × Option Err) :
    (m.reader = some ep → l.rMax ≠ Unlimited → inRange64 l.rMax →
      0 ≤ m.rCount → m.rCount ≤ l.rMax →
      (∀ k : Nat, 0 ≤ (ep.call k).1 ∧ (ep.call k).1 ≤ (k : Int)) →
      (Limit.Read l p).2.2.CountRead ≤ l.rMax) ∧
    (m.writer = some epw → l.wMax ≠ Unlimited → inRange64 l.wMax →
      0 ≤ m.wCount → m.wCount ≤ l.wMax →
      (∀ k : Nat, 0 ≤ (epw.call k).1 ∧ (epw.call k).1 ≤ (k : Int)) →
      (Limit.Write l q).2.2.CountWrite ≤ l.wMax) ∧
    (m.CanWrite = true → l.wMax ≠ Unlimited → inRange64 l.wMax →
      0 ≤ m.wCount → m.wCount ≤ l.wMax →
      (∀ r : Int, 0 < r → 0 ≤ (cN r).1 ∧ (cN r).1 ≤ r) →
      (Limit.ReadFrom l cA cN).2.2.CountWrite ≤ l.wMax) ∧
    (m.CanRead = true → l.rMax ≠ Unlimited → inRange64 l.rMax →
      0 ≤ m.rCount → m.rCount ≤ l.rMax →
      (∀ r : Int, 0 < r → 0 ≤ (cN' r).1 ∧ (cN' r).1 ≤ r) →
      (Limit.WriteTo l cA' cN').2.2.CountRead ≤ l.rMax) := by
  refine ⟨?_, ?_, ?_, ?_⟩
  · intro hr hu hR h0 hle hcon
    obtain ⟨hR1, hR2⟩ := hR
    by_cases hge : m.rCount ≥ l.rMax
    · simp [Limit.Read, hm, hr, hu, hge, Limit.CountRead]
      omega
    · have hRem : wrap64 (l.rMax - m.rCount) = l.rMax - m.rCount :=
        wrap64_eq (by omega) (by omega)
      by_cases hgt : (p : Int) > l.rMax - m.rCount
      · obtain ⟨hn0, hn1⟩ := hcon (l.rMax - m.rCount).toNat
        have hcast : (((l.rMax - m.rCount).toNat : Nat) : Int) = l.rMax - m.rCount := by
          omega
        rw [hcast] at hn1
        simp [Limit.Read, hm, hr, hu, hge, hgt, hRem, Meter.AddCountRead,
          Limit.CountRead]
        rw [wrap64_eq (by omega) (by omega)]
        omega
      · obtain ⟨hn0, hn1⟩ := hcon p
        simp [Limit.Read, hm, hr, hu, hge, hgt, hRem, Meter.AddCountRead,
          Limit.CountRead]
        rw [wrap64_eq (by omega) (by omega)]
        omega
  · intro hw hu hR h0 hle hcon
    obtain ⟨hR1, hR2⟩ := hR
    by_cases hge : m.wCount ≥ l.wMax
    · simp [Limit.Write, hm, hw, hu, hge, Limit.CountWrite]
      omega
    · have hRem : wrap64 (l.wMax - m.wCount) = l.wMax - m.wCount :=
        wrap64_eq (by omega) (by omega)
      by_cases hgt : (q : Int) > l.wMax - m.wCount
      · obtain ⟨hn0, hn1⟩ := hcon (l.wMax - m.wCount).toNat
        have hcast : (((l.wMax - m.wCount).toNat : Nat) : Int) = l.wMax - m.wCount := by
          omega
        rw [hcast] at hn1
        simp [Limit.Write, hm, hw, hu, hge, hgt, hRem, Meter.AddCountWrite,
          Limit.CountWrite]
        rw [wrap64_eq (by omega) (by omega)]
        omega
      · obtain ⟨hn0, hn1⟩ := hcon q
        simp [Limit.Write, hm, hw, hu, hge, hgt, hRem, Meter.AddCountWrite,
          Limit.CountWrite]
        rw [wrap64_eq (by omega) (by omega)]
        omega
  · intro hw hu hR h0 hle hcon
    obtain ⟨hR1, hR2⟩ := hR
    have hRem : wrap64 (l.wMax - m.wCount) = l.wMax - m.wCount :=
      wrap64_eq (by omega) (by omega)
    by_cases hz : l.wMax - m.wCount ≤ 0
    · simp [Limit.ReadFrom, hm, hw, hu, hRem, hz, Limit.CountWrite]
      omega
    · obtain ⟨hn0, hn1⟩ := hcon (l.wMax - m.wCount) (by omega)
      simp [Limit.ReadFrom, hm, hw, hu, hRem, hz, Meter.AddCountWrite,
        Limit.CountWrite]
      rw [wrap64_eq (by omega) (by omega)]
      omega
  · intro hr hu hR h0 hle hcon
    obtain ⟨hR1, hR2⟩ := hR
    have hRem : wrap64 (l.rMax - m.rCount) = l.rMax - m.rCount :=
      wrap64_eq (by omega) (by omega)
    by_cases hz : l.rMax - m.rCount ≤ 0
    · simp [Limit.WriteTo, hm, hr, hu, hRem, hz, Limit.CountRead]
      omega
    · obtain ⟨hn0, hn1⟩ := hcon (l.rMax - m.rCount) (by omega)
      simp [Limit.WriteTo, hm, hr, hu, hRem, hz, Meter.AddCountRead,
        Limit.CountRead]
      rw [wrap64_eq (by omega) (by omega)]
      omega

/-- C5 witness: on `lW5` (ceilings 5 and 6, counters 2 and 3, full-service
endpoints and a no-progress bounded drain) all four calls leave the
counters at or below the ceilings. -/
theorem c5_ceiling_invariant_witness :
    (Limit.Read lW5 13).2.2.CountRead ≤ lW5.rMax ∧
    (Limit.Write lW5 14).2.2.CountWrite ≤ lW5.wMax ∧
    (Limit.ReadFrom lW5 (9, none) czero).2.2.CountWrite ≤ lW5.wMax ∧
    (Limit.WriteTo lW5 (9, none) czero).2.2.CountRead ≤ lW5.rMax := by
  have h := c5_ceiling_invariant lW5 mW5 rfl 13 14 epFull epFull
    (9, none) (9, none) czero czero
  refine ⟨h.1 rfl (by decide) (by constructor <;> decide) (by decide) (by decide) ?_,
    h.2.1 rfl (by decide) (by constructor <;> decide) (by decide) (by decide) ?_,
    h.2.2.1 rfl (by decide) (by constructor <;> decide) (by decide) (by decide) ?_,
    h.2.2.2 rfl (by decide) (by constructor <;> decide) (by decide) (by decide) ?_⟩
  · intro k
    simp [epFull]
  · intro k
    simp [epFull]
  · intro r hr
    simp [czero]
    omega
  · intro r hr
    simp [czero]
    omega

/-- C7: every `Meter.Read` (resp. `Meter.Write`) call changes the read
(resp. write) counter by exactly the byte count the endpoint's own call
returned — also on a short transfer or when an error is returned alongside
— and never by the requested buffer length when the two differ; the other
counter is untouched.  The explicit `Add`/`Set`/`Reset` operations are the
only other counter mutations in the model. -/
theorem c7_meter_counts (m : Meter) (ep epw : Endpoint) (p q : Nat) (x y : Int) :
    (m.reader = some ep →
      (m.Read p).1 = (ep.call p).1 ∧
      (m.Read p).2.1 = (ep.call p).2 ∧
      (m.Read p).2.2.rCount = wrap64 (m.rCount + (ep.call p).1) ∧
      (m.Read p).2.2.wCount = m.wCount ∧
      (inRange64 (m.rCount + (ep.call p).1) →
        (m.Read p).2.2.rCount = m.rCount + (ep.call p).1) ∧
      (inRange64 (m.rCount + (ep.call p).1) → inRange64 (m.rCount + (p : Int)) →
        (ep.call p).1 ≠ (p : Int) →
        (m.Read p).2.2.rCount ≠ m.rCount + (p : Int))) ∧
    (m.writer = some epw →
      (m.Write q).1 = (epw.call q).1 ∧
      (m.Write q).2.1 = (epw.call q).2 ∧
      (m.Write q).2.2.wCount = wrap64 (m.wCount + (epw.call q).1) ∧
      (m.Write q).2.2.rCount = m.rCount ∧
      (inRange64 (m.wCount + (epw.call q).1) →
        (m.Write q).2.2.wCount = m.wCount + (epw.call q).1) ∧
      (inRange64 (m.wCount + (epw.call q).1) → inRange64 (m.wCount + (q : Int)) →
        (epw.call q).1 ≠ (q : Int) →
        (m.Write q).2.2.wCount ≠ m.wCount + (q : Int))) ∧
    ((m.SetCountRead x).rCount = x ∧ (m.SetCountRead x).wCount = m.wCount ∧
     (m.SetCountWrite y).wCount = y ∧ (m.SetCountWrite y).rCount = m.rCount ∧
     m.ResetCount.rCount = 0 ∧ m.ResetCount.wCount = 0 ∧
     (m.AddCountRead x).2.rCount = wrap64 (m.rCount + x) ∧
     (m.AddCountWrite y).2.wCount = wrap64 (m.wCount + y)) := by
  refine ⟨?_, ?_, ?_⟩
  · intro hr
    refine ⟨by simp [Meter.Read, hr], by simp [Meter.Read, hr],
      by simp [Meter.Read, hr, Meter.AddCountRead],
      by simp [Meter.Read, hr, Meter.AddCountRead], ?_, ?_⟩
    · intro hin
      simp [Meter.Read, hr, Meter.AddCountRead, wrap64_eq hin.1 hin.2]
    · intro hin hinp hne
      simp [Meter.Read, hr, Meter.AddCountRead, wrap64_eq hin.1 hin.2]
      omega
  · intro hw
    refine ⟨by simp [Meter.Write, hw], by simp [Meter.Write, hw],
      by simp [Meter.Write, hw, Meter.AddCountWrite],
      by simp [Meter.Write, hw, Meter.AddCountWrite], ?_, ?_⟩
    · intro hin
      simp [Meter.Write, hw, Meter.AddCountWrite, wrap64_eq hin.1 hin.2]
    · intro hin hinq hne
      simp [Meter.Write, hw, Meter.AddCountWrite, wrap64_eq hin.1 hin.2]
      omega
  · simp [Meter.SetCountRead, Meter.SetCountWrite, Meter.ResetCount,
      Meter.AddCountRead, Meter.AddCountWrite]

/-- C7 witness: on `mW7` (counters 10 and 20, endpoints a byte short), a
4-byte read advances the read counter by 3 — not 4 — and a 5-byte write
advances the write counter by 4 — not 5. -/
theorem c7_meter_counts_witness :
    (mW7.Read 4).1 = (epShort.call 4).1 ∧
    (mW7.Read 4).2.2.rCount = mW7.rCount + (epShort.call 4).1 ∧
    (mW7.Read 4).2.2.rCount ≠ mW7.rCount + (4 : Int) ∧
    (mW7.Read 4).2.2.wCount = mW7.wCount ∧
    (mW7.Write 5).1 = (epShort.call 5).1 ∧
    (mW7.Write 5).2.2.wCount = mW7.wCount + (epShort.call 5).1 ∧
    (mW7.Write 5).2.2.wCount ≠ mW7.wCount + (5 : Int) ∧
    (mW7.SetCountRead 11).rCount = 11 ∧
    (mW7.AddCountWrite 22).2.wCount = wrap64 (mW7.wCount + 22) := by
  have h := c7_meter_counts mW7 epShort epShort 4 5 11 22
  have hr := h.1 rfl
  have hw := h.2.1 rfl
  exact ⟨hr.1, hr.2.2.2.2.1 (by constructor <;> decide),
    hr.2.2.2.2.2 (by constructor <;> decide) (by constructor <;> decide) (by decide),
    hr.2.2.2.1, hw.1, hw.2.2.2.2.1 (by constructor <;> decide),
    hw.2.2.2.2.2 (by constructor <;> decide) (by constructor <;> decide) (by decide),
    h.2.2.1, h.2.2.2.2.2.2.2.2.2⟩

/-- C8: `Meter.Close` invokes close on exactly the bound endpoints exposing
a close capability — so with none it makes no invocation and returns nil —
its joined error is nil iff every invoked close succeeded, the joined error
causally matches (`errors.Is`) each underlying close error, the readable
binding is closed first and the writable binding second (visible in the
shape of the nested join), and `Limit.Close` returns exactly the embedded
meter's `Close` result. -/
theorem c8_close_join (l : Limit) (m : Meter) (hm : l.meter = some m) :
    (m.Close.1 = none ↔ ∀ r ∈ m.closeResults, r = none) ∧
    (∀ e : Err, some e ∈ m.closeResults →
      ∃ j, m.Close.1 = some j ∧ errIs j e = true) ∧
    (m.Close.2 = m.closeResults.length) ∧
    (∀ e1 e2 : Err, m.reader.bind Endpoint.closer = some (some e1) →
      m.writer.bind Endpoint.closer = some (some e2) →
      m.Close.1 = some (.join2 (.join1 e1) e2)) ∧
    Limit.Close l = m.Close := by
  obtain ⟨or, ow, rc, wc⟩ := m
  refine ⟨?_, ?_, ?_, ?_, by simp [Limit.Close, hm]⟩ <;>
    rcases or with _ | ⟨fr, _ | (_ | e1)⟩ <;>
    rcases ow with _ | ⟨fw, _ | (_ | e2)⟩ <;>
    simp [Meter.Close, Meter.close, closeStep, Meter.closeResults, errorsJoin,
      errIs, errIs_self, Option.bind]

/-- C8 witness: on `mW8` (reader and writer both closable, failing with
`underlying 1` and `underlying 2` respectively) the joined error nests the
reader's close error first, the invocation count equals the number of
closable bindings, and `Limit.Close` on `lW8` delegates to it. -/
theorem c8_close_join_witness :
    mW8.Close.1 = some (.join2 (.join1 (.underlying 1)) (.underlying 2)) ∧
    mW8.Close.2 = mW8.closeResults.length ∧
    Limit.Close lW8 = mW8.Close := by
  have h := c8_close_join lW8 mW8 rfl
  exact ⟨h.2.2.2.1 (.underlying 1) (.underlying 2) rfl rfl, h.2.2.1, h.2.2.2.2⟩

/-- C9: for every `Limit` with a non-`Unlimited` write ceiling and positive
remaining write capacity `rem`, when the bounded drain copies exactly `rem`
bytes without fault, `ReadFrom` returns `(rem, nil)` — no `LimitError` is
synthesized, so a drain cut off by the ceiling is indistinguishable by its
error value from one that exhausted the source; symmetrically for `WriteTo`
with the read ceiling. -/
theorem c9_full_drain_no_limit_error (l : Limit) (m : Meter)
    (hm : l.meter = some m) (remW remR : Int) (cA cA' : Int × Option Err)
    (cN cN' : Int → Int × Option Err) :
    (m.CanWrite = true → l.wMax ≠ Unlimited →
      wrap64 (l.wMax - m.wCount) = remW → 0 < remW → cN remW = (remW, none) →
      Limit.ReadFrom l cA cN =
        (remW, none, { l with meter := some (m.AddCountWrite remW).2 })) ∧
    (m.CanRead = true → l.rMax ≠ Unlimited →
      wrap64 (l.rMax - m.rCount) = remR → 0 < remR → cN' remR = (remR, none) →
      Limit.WriteTo l cA' cN' =
        (remR, none, { l with meter := some (m.AddCountRead remR).2 })) := by
  constructor
  · intro hw hu hrem hpos hc
    have hz : ¬ remW ≤ 0 := by omega
    simp [Limit.ReadFrom, hm, hw, hu, hrem, hz, hc]
  · intro hr hu hrem hpos hc
    have hz : ¬ remR ≤ 0 := by omega
    simp [Limit.WriteTo, hm, hr, hu, hrem, hz, hc]

/-- C9 witness: on `lW9` (remaining capacities 6 to write, 4 to read) the
bounded drains that copy exactly the remaining capacity return it with a
nil error. -/
theorem c9_full_drain_no_limit_error_witness :
    Limit.ReadFrom lW9 (9, none) cfull =
      (6, none, { lW9 with meter := some (mW9.AddCountWrite 6).2 }) ∧
    Limit.WriteTo lW9 (9, none) cfull =
      (4, none, { lW9 with meter := some (mW9.AddCountRead 4).2 }) :=
  ⟨(c9_full_drain_no_limit_error lW9 mW9 rfl 6 4 (9, none) (9, none)
      cfull cfull).1 rfl (by decide) (by decide) (by decide) rfl,
   (c9_full_drain_no_limit_error lW9 mW9 rfl 6 4 (9, none) (9, none)
      cfull cfull).2 rfl (by decide) (by decide) (by decide) rfl⟩

/-- C10: a `Meter` built by `NewReadWriteMeter(rw)` binds the one object
`rw` as both reader and writer; when `rw` is closable, one `Close()` call
invokes `rw`'s close twice (invocation count 2) — once for the reader
binding, once for the writer binding — and returns the `errors.Join` of the
two results. -/
theorem c10_readwrite_close_twice (rw : Endpoint) (ce : Option Err)
    (h : rw.closer = some ce) :
    (NewReadWriteMeter rw).Close = (errorsJoin (errorsJoin none ce) ce, 2) := by
  simp [NewReadWriteMeter, Meter.Close, Meter.close, closeStep, h]

/-- C10 witness: closing the read-write meter over `rwC` (close error
`underlying 3`) invokes close twice and joins the error with itself. -/
theorem c10_readwrite_close_twice_witness :
    (NewReadWriteMeter rwC).Close =
      (errorsJoin (errorsJoin none (some (.underlying 3))) (some (.underlying 3)), 2) :=
  c10_readwrite_close_twice rwC (some (.underlying 3)) rfl

end Valve
